import Mathlib

/-! Verification of the db_llm repository against its design document.

The repository is a Python application (src/app.py, src/db_methods.py,
src/rag_methods.py).  This file gives a shallow embedding of the data model
and the operations the design document speaks about, and proves or refutes
the document's claims.  Python strings are modelled as lists of characters,
Python session state as an explicit record, and the external services
(SQL Server, the hosted LLM, the document loaders, the splitter) as oracle
parameters describing one concrete behaviour of the service per run. -/

abbrev Str := List Char

def chars (s : String) : Str := s.data

/-- Characters stripped by Python str.strip() with no argument: exactly the
code points for which str.isspace() holds. -/
def pyIsSpace (c : Char) : Bool :=
  c.toNat = 32 || (9 ≤ c.toNat && c.toNat ≤ 13) || (28 ≤ c.toNat && c.toNat ≤ 31) ||
  c.toNat = 133 || c.toNat = 160 || c.toNat = 5760 ||
  (8192 ≤ c.toNat && c.toNat ≤ 8202) || c.toNat = 8232 || c.toNat = 8233 ||
  c.toNat = 8239 || c.toNat = 8287 || c.toNat = 12288

/-- Python str.strip() with no argument. -/
def pyStrip (s : Str) : Str :=
  ((s.dropWhile pyIsSpace).reverse.dropWhile pyIsSpace).reverse

/-- Python str.lower(), restricted to the ASCII case mapping.  On every
character whose lowercase form is a letter of "sql" or "tsql" (the only
strings the code compares a lowered result against) this agrees with full
Unicode lowercasing. -/
def pyLower (s : Str) : Str := s.map Char.toLower

/-- Line boundary characters recognised by Python str.splitlines
(the two-character boundary "\r\n" is handled separately in pySplitlines). -/
def pyIsLineBreak (c : Char) : Bool :=
  c.toNat = 10 || c.toNat = 13 || c.toNat = 11 || c.toNat = 12 ||
  c.toNat = 28 || c.toNat = 29 || c.toNat = 30 || c.toNat = 133 ||
  c.toNat = 8232 || c.toNat = 8233

/-- Python str.splitlines(): split at line boundaries, no trailing empty line,
"\r\n" counts as a single boundary. -/
def pySplitlines : Str → List Str
  | [] => []
  | '\r' :: '\n' :: rest => [] :: pySplitlines rest
  | c :: rest =>
    if pyIsLineBreak c then [] :: pySplitlines rest
    else
      match pySplitlines rest with
      | [] => [[c]]
      | l :: ls => (c :: l) :: ls

/-- Start positions at which pat occurs in s, in increasing order: the
candidate positions Python str.find and str.rfind range over. -/
def matchPositions (pat s : Str) : List Nat :=
  (List.range (s.length + 1)).filter (fun i => pat.isPrefixOf (s.drop i))

/-- Python s.find(pat), with None for the -1 "absent" result. -/
def pyFind (pat s : Str) : Option Nat := (matchPositions pat s).head?

/-- Python s.rfind(pat), with None for the -1 "absent" result. -/
def pyRFind (pat s : Str) : Option Nat := (matchPositions pat s).getLast?

/-- Python slice s[a:b] for nonnegative bounds. -/
def pySlice (a b : Nat) (s : Str) : Str := (s.take b).drop a

/-- The triple-backtick fence marker of db_methods.py line 316. -/
def tbt : Str := chars ("```")

def nlChar : Char := '\n'

/-- Fence extraction step of stream_db_response (db_methods.py lines 315-321):
if the model response contains the fence marker, slice between find("```")+3
and rfind("```") and strip; otherwise strip the whole response. -/
def extractFenced (raw : Str) : Str :=
  match pyFind tbt raw with
  | some i => pyStrip (pySlice (i + 3) ((pyRFind tbt raw).getD 0) raw)
  | none => pyStrip raw

/-- Language-tag cleanup step of stream_db_response (db_methods.py lines
323-327): when the extracted text is nonempty and its first line, stripped
and lowercased, is "sql" or "tsql", drop that line, rejoin the rest with
newlines and strip. -/
def stripLangTag (sql : Str) : Str :=
  if sql = [] then sql
  else
    match pySplitlines sql with
    | [] => sql
    | l0 :: rest =>
      if pyLower (pyStrip l0) = chars ("sql") || pyLower (pyStrip l0) = chars ("tsql") then
        pyStrip (List.intercalate [nlChar] rest)
      else sql

/-- The complete SQL extraction of stream_db_response (db_methods.py lines
314-327). -/
def extract_sql (raw : Str) : Str := stripLangTag (extractFenced raw)

inductive SqlStep
  | execute (sql : Str)
  | fallbackNoSql
deriving DecidableEq

/-- Decision taken right after extraction (db_methods.py lines 330-337): an
empty statement falls back to the conversational path, a nonempty one is
passed to run_sql_query. -/
def sqlDispatch (raw : Str) : SqlStep :=
  let sql := extract_sql raw
  if sql = [] then SqlStep.fallbackNoSql else SqlStep.execute sql

/-- Spec reading of the bare-language-tag test (claim C10): the first line,
stripped of whitespace and lowercased, is exactly "sql" or "tsql". -/
def isBareLangTag (line : Str) : Bool :=
  pyLower (pyStrip line) = chars ("sql") || pyLower (pyStrip line) = chars ("tsql")

/-- Spec wording of the cleanup applied to the extracted text: drop the first
line exactly when it is a bare language tag. -/
def specDropLangTag (t : Str) : Str :=
  match pySplitlines t with
  | [] => t
  | l0 :: rest => if isBareLangTag l0 then pyStrip (List.intercalate [nlChar] rest) else t

/-- Spec wording of claim C1's extraction formula: the substring between the
end of the first fence marker and the start of the last one, trimmed, with a
bare language tag line dropped. -/
def specExtractFencedC1 (raw : Str) (i j : Nat) : Str :=
  specDropLangTag (pyStrip (pySlice (i + 3) j raw))

/-! Catalog model: the rows of INFORMATION_SCHEMA.TABLES and
INFORMATION_SCHEMA.COLUMNS of the current database, which is all that
get_schema_summary reads. -/

structure CatTable where
  tschema : Str
  tname : Str
  ttype : Str
deriving DecidableEq

structure CatColumn where
  cschema : Str
  ctable : Str
  cname : Str
  cdataType : Str
  ordinal : Nat
deriving DecidableEq

structure Catalog where
  tables : List CatTable
  columns : List CatColumn
deriving DecidableEq

/-- Lexicographic code-point order on strings: the fixed total order standing
in for the server collation in ORDER BY on text columns, and for Python's
sorted() on strings. -/
def strLe : Str → Str → Bool
  | [], _ => true
  | _ :: _, [] => false
  | a :: as, b :: bs =>
    if a.toNat < b.toNat then true
    else if b.toNat < a.toNat then false
    else strLe as bs

/-- ORDER BY TABLE_SCHEMA, TABLE_NAME (db_methods.py line 179). -/
def tabLe (t u : CatTable) : Bool :=
  if t.tschema = u.tschema then strLe t.tname u.tname else strLe t.tschema u.tschema

/-- Rows of the table query of get_schema_summary (db_methods.py lines
174-181): base tables only, ordered by (schema, name). -/
def baseTablesSorted (cat : Catalog) : List CatTable :=
  List.insertionSort (fun t u => tabLe t u = true)
    (cat.tables.filter (fun t => t.ttype = chars ("BASE TABLE")))

/-- Rows of the column query for one table (db_methods.py lines 193-201):
the columns of that schema-qualified table, ordered by ordinal position. -/
def tableColumnsSorted (cat : Catalog) (t : CatTable) : List CatColumn :=
  List.insertionSort (fun c d => c.ordinal ≤ d.ordinal)
    (cat.columns.filter (fun c => c.cschema = t.tschema && c.ctable = t.tname))

/-- One line of the schema summary (db_methods.py lines 203-206). -/
def tableLine (cat : Catalog) (t : CatTable) : Str :=
  chars ("TABLE ") ++ t.tschema ++ chars (".") ++ t.tname ++ chars (": ") ++
    List.intercalate (chars (", "))
      ((tableColumnsSorted cat t).map (fun c => c.cname ++ chars (" ") ++ c.cdataType))

/-- get_schema_summary (db_methods.py lines 161-211): sentinel "NO_DB" when no
database is loaded, sentinel "NO_TABLES" when the catalog holds no base table,
otherwise one formatted line per base table joined by newlines.  hasDb stands
for the has_db() check, cat for the catalog rows the INFORMATION_SCHEMA
queries of the current database return. -/
def get_schema_summary (hasDb : Bool) (cat : Catalog) : Str :=
  if ¬ hasDb then chars ("NO_DB")
  else if baseTablesSorted cat = [] then chars ("NO_TABLES")
  else List.intercalate [nlChar] ((baseTablesSorted cat).map (tableLine cat))

/-! Session state: the st.session_state fields this repository reads or
writes, as one explicit record. -/

structure Msg where
  role : Str
  content : Str
deriving DecidableEq

def mkAssistant (content : Str) : Msg := { role := chars ("assistant"), content := content }

structure UploadedFile where
  fname : Str
  fcontent : Str
deriving DecidableEq

structure DocFile where
  dname : Str
  dtype : Str
  dcontent : Str
deriving DecidableEq

/-- One embedded chunk of the vector index, tagged with the source (file name
or URL) whose text it came from. -/
structure Chunk where
  csource : Str
  ctext : Str
deriving DecidableEq

structure SessionState where
  db_file : Option UploadedFile
  current_db_name : Option Str
  db_loaded : Option Bool
  messages : List Msg
  rag_docs : Option (List DocFile)
  rag_url : Option Str
  rag_sources : List Str
  vector_db : Option (List Chunk)
deriving DecidableEq

/-- has_db (db_methods.py lines 42-48): the session holds a current database
name and it is truthy (nonempty). -/
def has_db (s : SessionState) : Bool :=
  match s.current_db_name with
  | some n => !n.isEmpty
  | none => false

/-! Model of stream_db_response (db_methods.py lines 217-384).  The hosted
model and the database are external: an oracle fixes the outcome of each of
the at most three model calls and of the one run_sql_query call of a turn.
The trace records every external call in order. -/

inductive Ev
  | connSchema
  | llmGenSql
  | llmFallback
  | llmExplain
  | runSqlEv (sql : Str)
deriving DecidableEq

abbrev Cell := Str
abbrev Row := List Cell

def max_rows_for_llm : Nat := 50

/-- The result_payload dict of db_methods.py lines 349-355. -/
structure Payload where
  question : Str
  sql : Str
  columns : List Str
  rows_sample : List Row
  total_rows : Nat
deriving DecidableEq

structure LLMOracle where
  genSql : Except Str Str
  fallbackReply : Except Str Str
  explainReply : Except Str Str

structure DbOracle where
  runSql : Except Str (List Str × List Row)

structure StreamOut where
  events : List Ev
  yielded : Option Str
  raised : Bool
  messages : List Msg
  payload : Option Payload
deriving DecidableEq

def noDbMsg : Str :=
  chars ("Nu există nicio bază de date încărcată. Încarcă un fișier .bak mai întâi.")

def emptyDbMsg : Str :=
  chars ("Baza de date este goală sau nu are tabele de utilizator. Verifică fișierul .bak.")

def noQuestionMsg : Str := chars ("Nu am putut determina întrebarea utilizatorului.")

def defaultAnswerMsg : Str := chars ("Nu am reușit să formulez un răspuns.")

/-- fallback_normal_answer (db_methods.py lines 258-280): one further model
call; its answer (or the default text when the reply content is empty) is
appended to the turn history and returned; an exception here is unhandled
and propagates out of the generator. -/
def fallback_normal_answer (msgs : List Msg) (evs : List Ev) (llm : LLMOracle) : StreamOut :=
  match llm.fallbackReply with
  | Except.error _ =>
    { events := evs ++ [Ev.llmFallback], yielded := none, raised := true,
      messages := msgs, payload := none }
  | Except.ok c =>
    let answer := if c = [] then defaultAnswerMsg else c
    { events := evs ++ [Ev.llmFallback], yielded := some answer, raised := false,
      messages := msgs ++ [mkAssistant answer], payload := none }

/-- Extraction of the user question (db_methods.py lines 243-254): the content
of the last history message; an absent or empty content is falsy. -/
def lastQuestion (history : List Str) : Option Str :=
  match history.getLast? with
  | none => none
  | some q => if q = [] then none else some q

/-- stream_db_response (db_methods.py lines 217-384) as a function of the
session, the catalog of the current database, the contents of the chat
history handed to it, and the oracle behaviour of the model and of
run_sql_query on this turn. -/
def stream_db_response (s : SessionState) (cat : Catalog) (history : List Str)
    (llm : LLMOracle) (db : DbOracle) : StreamOut :=
  if ¬ has_db s then
    { events := [], yielded := some noDbMsg, raised := false,
      messages := s.messages ++ [mkAssistant noDbMsg], payload := none }
  else
    let schema_text := get_schema_summary (has_db s) cat
    if schema_text = chars ("NO_DB") || schema_text = chars ("NO_TABLES") then
      { events := [Ev.connSchema], yielded := some emptyDbMsg, raised := false,
        messages := s.messages ++ [mkAssistant emptyDbMsg], payload := none }
    else
      match lastQuestion history with
      | none =>
        { events := [Ev.connSchema], yielded := some noQuestionMsg, raised := false,
          messages := s.messages ++ [mkAssistant noQuestionMsg], payload := none }
      | some q =>
        match llm.genSql with
        | Except.error _ => fallback_normal_answer s.messages [Ev.connSchema, Ev.llmGenSql] llm
        | Except.ok raw =>
          let sql := extract_sql raw
          if sql = [] then fallback_normal_answer s.messages [Ev.connSchema, Ev.llmGenSql] llm
          else
            match db.runSql with
            | Except.error _ =>
              fallback_normal_answer s.messages
                [Ev.connSchema, Ev.llmGenSql, Ev.runSqlEv sql] llm
            | Except.ok (columns, rows) =>
              let payload : Payload :=
                { question := q, sql := sql, columns := columns,
                  rows_sample := rows.take max_rows_for_llm, total_rows := rows.length }
              match llm.explainReply with
              | Except.error _ =>
                { events := [Ev.connSchema, Ev.llmGenSql, Ev.runSqlEv sql, Ev.llmExplain],
                  yielded := none, raised := true, messages := s.messages,
                  payload := some payload }
              | Except.ok c =>
                let finalAnswer := if c = [] then defaultAnswerMsg else c
                { events := [Ev.connSchema, Ev.llmGenSql, Ev.runSqlEv sql, Ev.llmExplain],
                  yielded := some finalAnswer, raised := false,
                  messages := s.messages ++ [mkAssistant finalAnswer],
                  payload := some payload }

/-! Model of restore_database_from_bak (db_methods.py lines 65-102) and
load_db_generic (db_methods.py lines 108-155).  The SQL Server is external:
an oracle fixes the outcome of the FILELISTONLY query and of the RESTORE
DATABASE command of one call. -/

structure FileRow where
  logicalName : Str
deriving DecidableEq

inductive REv
  | openConn
  | execManifest
  | closeConn
  | execRestore (logicalData logicalLog : Str)
deriving DecidableEq

structure RestoreOracle where
  manifest : Except Str (List FileRow)
  restoreExec : Except Str Unit

inductive RestoreErr
  | structural
  | server (msg : Str)
deriving DecidableEq

inductive RestoreOutcome
  | finished
  | raised (e : RestoreErr)
deriving DecidableEq

structure RestoreTrace where
  revents : List REv
  routcome : RestoreOutcome
deriving DecidableEq

/-- restore_database_from_bak (db_methods.py lines 65-102): run FILELISTONLY;
with fewer than two manifest rows, close the connection and raise the
structural RuntimeError; otherwise issue the RESTORE command built from the
first two logical names and close the connection on success.  An exception
from either statement propagates (and in that case the connection is not
closed). -/
def restore_database_from_bak (o : RestoreOracle) : RestoreTrace :=
  match o.manifest with
  | Except.error e =>
    { revents := [REv.openConn, REv.execManifest],
      routcome := RestoreOutcome.raised (RestoreErr.server e) }
  | Except.ok file_rows =>
    match file_rows with
    | r0 :: r1 :: _ =>
      match o.restoreExec with
      | Except.error e =>
        { revents := [REv.openConn, REv.execManifest,
                      REv.execRestore r0.logicalName r1.logicalName],
          routcome := RestoreOutcome.raised (RestoreErr.server e) }
      | Except.ok _ =>
        { revents := [REv.openConn, REv.execManifest,
                      REv.execRestore r0.logicalName r1.logicalName, REv.closeConn],
          routcome := RestoreOutcome.finished }
    | _ =>
      { revents := [REv.openConn, REv.execManifest, REv.closeConn],
        routcome := RestoreOutcome.raised RestoreErr.structural }

structure LoadOracle where
  uuid : Str
  saveResult : Except Str Unit
  restoreOracle : RestoreOracle

structure LoadTrace where
  errorReported : Bool
  toastShown : Bool
  restoreTrace : Option RestoreTrace
deriving DecidableEq

/-- load_db_generic (db_methods.py lines 108-155) as a session-state
transformer: no-op on a falsy upload, extension check, then save the file,
restore, and only on full success record the new name as current. -/
def load_db_generic (s : SessionState) (o : LoadOracle) : SessionState × LoadTrace :=
  match s.db_file with
  | none => (s, { errorReported := false, toastShown := false, restoreTrace := none })
  | some file =>
    if ¬ (chars (".bak")).isSuffixOf (pyLower file.fname) then
      ({ s with db_loaded := some false },
       { errorReported := true, toastShown := false, restoreTrace := none })
    else
      match o.saveResult with
      | Except.error _ =>
        ({ s with db_loaded := some false },
         { errorReported := true, toastShown := false, restoreTrace := none })
      | Except.ok _ =>
        let rt := restore_database_from_bak o.restoreOracle
        match rt.routcome with
        | RestoreOutcome.raised _ =>
          ({ s with db_loaded := some false },
           { errorReported := true, toastShown := false, restoreTrace := some rt })
        | RestoreOutcome.finished =>
          let db_name := chars ("userdb_") ++ o.uuid.take 8
          ({ s with current_db_name := some db_name, db_loaded := some true },
           { errorReported := false, toastShown := true, restoreTrace := some rt })

/-! Model of the ingestion functions of rag_methods.py.  The document
loaders, the web fetch and the text splitter are external; oracles map each
source to a load outcome and each loaded page text to its chunk texts.  A
chunk keeps the name of the source its page came from (the splitter
preserves document metadata), which is what "chunks for a source" means. -/

def DB_DOCS_LIMIT : Nat := 10

structure RagOracle where
  loadDoc : DocFile → Except Str (List Str)
  loadUrl : Str → Except Str (List Str)
  splitText : Str → List Str

structure LoadedDoc where
  lsource : Str
  ltext : Str
deriving DecidableEq

/-- split_documents of _split_and_load_docs (rag_methods.py lines 151-157):
each loaded page is split into chunks that keep their page's source. -/
def chunksOf (o : RagOracle) (docs : List LoadedDoc) : List Chunk :=
  docs.flatMap (fun d => (o.splitText d.ltext).map (fun t => { csource := d.lsource, ctext := t }))

/-- _split_and_load_docs (rag_methods.py lines 151-163), restricted to the
session: create the vector index with these chunks on first use, extend it
afterwards.  (The registry side effect of initialize_vector_db is modelled
separately below.) -/
def split_and_load_docs (o : RagOracle) (s : SessionState) (docs : List LoadedDoc) : SessionState :=
  match s.vector_db with
  | none => { s with vector_db := some (chunksOf o docs) }
  | some existing => { s with vector_db := some (existing ++ chunksOf o docs) }

inductive RagNote
  | warnUnsupported (dtype : Str)
  | errLoad (sourceName : Str)
  | errLimit
deriving DecidableEq

/-- The per-file loop of load_doc_to_db (rag_methods.py lines 55-87):
already-seen names are skipped silently; under the cap the loader chosen by
type or extension runs, appending the pages and the source name on success
and surfacing a warning or error otherwise; at the cap an error is surfaced
and nothing is loaded. -/
def docLoop (o : RagOracle) : List DocFile → List Str → List LoadedDoc → List RagNote →
    List Str × List LoadedDoc × List RagNote
  | [], sources, docs, notes => (sources, docs, notes)
  | f :: fs, sources, docs, notes =>
    if f.dname ∈ sources then
      docLoop o fs sources docs notes
    else if sources.length < DB_DOCS_LIMIT then
      if f.dtype = chars ("application/pdf") ||
         (chars (".docx")).isSuffixOf f.dname ||
         f.dtype = chars ("text/plain") || f.dtype = chars ("text/markdown") then
        match o.loadDoc f with
        | Except.ok pages =>
          docLoop o fs (sources ++ [f.dname])
            (docs ++ pages.map (fun t => { lsource := f.dname, ltext := t })) notes
        | Except.error _ =>
          docLoop o fs sources docs (notes ++ [RagNote.errLoad f.dname])
      else docLoop o fs sources docs (notes ++ [RagNote.warnUnsupported f.dtype])
    else docLoop o fs sources docs (notes ++ [RagNote.errLimit])

/-- load_doc_to_db (rag_methods.py lines 52-94). -/
def load_doc_to_db (o : RagOracle) (s : SessionState) : SessionState × List RagNote :=
  match s.rag_docs with
  | none => (s, [])
  | some [] => (s, [])
  | some files =>
    match docLoop o files s.rag_sources [] [] with
    | (sources, docs, notes) =>
      let s1 := { s with rag_sources := sources }
      if docs = [] then (s1, notes) else (split_and_load_docs o s1 docs, notes)

/-- load_url_to_db (rag_methods.py lines 97-116). -/
def load_url_to_db (o : RagOracle) (s : SessionState) : SessionState × List RagNote :=
  match s.rag_url with
  | none => (s, [])
  | some url =>
    if url = [] then (s, [])
    else if url ∈ s.rag_sources then (s, [])
    else if s.rag_sources.length < DB_DOCS_LIMIT then
      match o.loadUrl url with
      | Except.error _ => (s, [RagNote.errLoad url])
      | Except.ok pages =>
        let docs := pages.map (fun t => { lsource := url, ltext := t })
        let s1 := { s with rag_sources := s.rag_sources ++ [url] }
        if docs = [] then (s1, []) else (split_and_load_docs o s1 docs, [])
    else (s, [RagNote.errLimit])

def collectionsCap : Nat := 20

/-- The while loop of initialize_vector_db (rag_methods.py lines 144-146):
names is the sorted view of the client's collections; while more than 20
remain, the first (smallest) is deleted from the client and popped from the
view. -/
def evictLoop : List Str → List Str → List Str
  | [], client => client
  | n :: rest, client =>
    if rest.length + 1 > collectionsCap then evictLoop rest (client.erase n)
    else client

/-- initialize_vector_db (rag_methods.py lines 119-148), restricted to its
effect on the process-wide Chroma collection registry: the new collection is
created, then the sorted name list is trimmed to at most 20 entries by
deleting the lexicographically first names.  Returns the new registry. -/
def initialize_vector_db (registry : List Str) (newName : Str) : List Str :=
  let reg1 := registry ++ [newName]
  evictLoop (List.insertionSort (fun a b => strLe a b = true) reg1) reg1

/-! Theorems.  Each claim of the design document gets one theorem below. -/

theorem stripLangTag_eq_specDrop (t : Str) : stripLangTag t = specDropLangTag t := by
  by_cases h : t = []
  · subst h; rfl
  · unfold stripLangTag specDropLangTag isBareLangTag
    rw [if_neg h]

/-- C1: for every model output containing a fenced block, the extracted SQL
equals the substring between the end of the first triple-backtick marker and
the start of the last one, trimmed of surrounding whitespace, with the first
line dropped when it is a bare language tag; and whenever that result is
nonempty it is exactly the statement passed on to execution. -/
theorem c1_fenced_extraction (raw : Str) (i j : Nat)
    (hfind : pyFind tbt raw = some i) (hrfind : pyRFind tbt raw = some j) :
    extract_sql raw = specExtractFencedC1 raw i j ∧
    (extract_sql raw ≠ [] → sqlDispatch raw = SqlStep.execute (extract_sql raw)) := by
  constructor
  · unfold extract_sql extractFenced specExtractFencedC1
    rw [hfind, hrfind]
    simp only [Option.getD_some]
    exact stripLangTag_eq_specDrop _
  · intro hne
    unfold sqlDispatch
    rw [if_neg hne]

theorem c1_fenced_extraction_witness :
    pyFind tbt (chars ("```sql\nSELECT 1\n```")) = some 0 ∧
    pyRFind tbt (chars ("```sql\nSELECT 1\n```")) = some 16 ∧
    (extract_sql (chars ("```sql\nSELECT 1\n```")) =
        specExtractFencedC1 (chars ("```sql\nSELECT 1\n```")) 0 16 ∧
      (extract_sql (chars ("```sql\nSELECT 1\n```")) ≠ [] →
        sqlDispatch (chars ("```sql\nSELECT 1\n```")) =
          SqlStep.execute (extract_sql (chars ("```sql\nSELECT 1\n```"))))) :=
  ⟨by decide, by decide, c1_fenced_extraction _ 0 16 (by decide) (by decide)⟩

/-- C2: with no fence marker the pre-cleanup extraction is the full trimmed
output; an empty statement after cleanup dispatches to the conversational
fallback; and no run of stream_db_response ever passes an empty statement to
run_sql_query. -/
theorem c2_no_fence_empty_fallback :
    (∀ raw : Str, pyFind tbt raw = none → extractFenced raw = pyStrip raw) ∧
    (∀ raw : Str, extract_sql raw = [] → sqlDispatch raw = SqlStep.fallbackNoSql) ∧
    (∀ (s : SessionState) (cat : Catalog) (history : List Str) (llm : LLMOracle)
        (db : DbOracle) (sql : Str),
      Ev.runSqlEv sql ∈ (stream_db_response s cat history llm db).events → sql ≠ []) := by
  refine ⟨?_, ?_, ?_⟩
  · intro raw hfind
    unfold extractFenced
    rw [hfind]
  · intro raw hempty
    unfold sqlDispatch
    rw [if_pos hempty]
  · intro s cat history llm db sql hmem
    simp only [stream_db_response, fallback_normal_answer] at hmem
    repeat' split at hmem
    all_goals simp_all

theorem c2_no_fence_empty_fallback_witness :
    extractFenced (chars ("  SELECT 2  ")) = pyStrip (chars ("  SELECT 2  ")) ∧
    sqlDispatch (chars ("sql")) = SqlStep.fallbackNoSql ∧
    chars ("SELECT 2") ≠ [] :=
  ⟨c2_no_fence_empty_fallback.1 _ (by decide),
   c2_no_fence_empty_fallback.2.1 _ (by decide),
   c2_no_fence_empty_fallback.2.2
     { db_file := none, current_db_name := some (chars ("userdb_1")), db_loaded := some true,
       messages := [], rag_docs := none, rag_url := none, rag_sources := [], vector_db := none }
     { tables := [{ tschema := chars ("dbo"), tname := chars ("T"), ttype := chars ("BASE TABLE") }],
       columns := [] }
     [chars ("how many rows?")]
     { genSql := Except.ok (chars ("SELECT 2")), fallbackReply := Except.ok (chars ("x")),
       explainReply := Except.ok (chars ("y")) }
     { runSql := Except.ok ([chars ("c")], [[chars ("1")]]) }
     (chars ("SELECT 2"))
     (by decide)⟩

/-- C10: the language-tag cleanup drops the first line of the extracted text
exactly when that line, stripped of whitespace and lowercased, is "sql" or
"tsql"; for every other first line the text is left intact. -/
theorem c10_lang_tag_iff (t l0 : Str) (rest : List Str)
    (hne : t ≠ []) (hsplit : pySplitlines t = l0 :: rest) :
    (isBareLangTag l0 = true →
        stripLangTag t = pyStrip (List.intercalate [nlChar] rest)) ∧
    (isBareLangTag l0 = false → stripLangTag t = t) ∧
    (isBareLangTag l0 = true ↔
        pyLower (pyStrip l0) = chars ("sql") ∨ pyLower (pyStrip l0) = chars ("tsql")) := by
  refine ⟨?_, ?_, ?_⟩
  · intro htag
    have h2 : (pyLower (pyStrip l0) = chars ("sql") || pyLower (pyStrip l0) = chars ("tsql")) = true := htag
    simp only [stripLangTag, if_neg hne, hsplit, h2, if_true]
  · intro htag
    have h2 : (pyLower (pyStrip l0) = chars ("sql") || pyLower (pyStrip l0) = chars ("tsql")) = false := htag
    simp only [stripLangTag, if_neg hne, hsplit, h2, Bool.false_eq_true, if_false]
  · simp [isBareLangTag]

theorem c10_lang_tag_iff_witness :
    (isBareLangTag (chars ("sql")) = true →
        stripLangTag (chars ("sql\nSELECT 1")) =
          pyStrip (List.intercalate [nlChar] [chars ("SELECT 1")])) ∧
    (isBareLangTag (chars ("mysql")) = false →
        stripLangTag (chars ("mysql\nSELECT 1")) = chars ("mysql\nSELECT 1")) :=
  ⟨fun h => (c10_lang_tag_iff (chars ("sql\nSELECT 1")) (chars ("sql"))
      [chars ("SELECT 1")] (by decide) (by decide)).1 h,
   fun h => (c10_lang_tag_iff (chars ("mysql\nSELECT 1")) (chars ("mysql"))
      [chars ("SELECT 1")] (by decide) (by decide)).2.1 h⟩

theorem char_toNat_inj {a b : Char} (h : a.toNat = b.toNat) : a = b :=
  Char.ext (UInt32.toNat.inj h)

theorem strLe_total : ∀ a b : Str, strLe a b = true ∨ strLe b a = true := by
  intro a
  induction a with
  | nil => intro b; left; rfl
  | cons x xs ih =>
    intro b
    cases b with
    | nil => right; rfl
    | cons y ys =>
      by_cases h1 : x.toNat < y.toNat
      · left; unfold strLe; rw [if_pos h1]
      · by_cases h2 : y.toNat < x.toNat
        · right; unfold strLe; rw [if_pos h2]
        · rcases ih ys with h | h
          · left; unfold strLe; rw [if_neg h1, if_neg h2]; exact h
          · right; unfold strLe; rw [if_neg h2, if_neg h1]; exact h

theorem strLe_trans : ∀ a b c : Str, strLe a b = true → strLe b c = true → strLe a c = true := by
  intro a
  induction a with
  | nil => intro b c _ _; rfl
  | cons x xs ih =>
    intro b c hab hbc
    cases b with
    | nil => exact absurd hab (by simp [strLe])
    | cons y ys =>
      cases c with
      | nil => exact absurd hbc (by simp [strLe])
      | cons z zs =>
        unfold strLe at hab hbc ⊢
        by_cases hxy : x.toNat < y.toNat
        · by_cases hyz : y.toNat < z.toNat
          · rw [if_pos (Nat.lt_trans hxy hyz)]
          · by_cases hzy : z.toNat < y.toNat
            · rw [if_neg hyz, if_pos hzy] at hbc
              exact absurd hbc (by simp)
            · rw [if_pos (show x.toNat < z.toNat by omega)]
        · by_cases hyx : y.toNat < x.toNat
          · rw [if_neg hxy, if_pos hyx] at hab
            exact absurd hab (by simp)
          · rw [if_neg hxy, if_neg hyx] at hab
            by_cases hyz : y.toNat < z.toNat
            · rw [if_pos (show x.toNat < z.toNat by omega)]
            · by_cases hzy : z.toNat < y.toNat
              · rw [if_neg hyz, if_pos hzy] at hbc
                exact absurd hbc (by simp)
              · rw [if_neg hyz, if_neg hzy] at hbc
                rw [if_neg (show ¬ x.toNat < z.toNat by omega),
                    if_neg (show ¬ z.toNat < x.toNat by omega)]
                exact ih ys zs hab hbc

theorem strLe_antisymm : ∀ a b : Str, strLe a b = true → strLe b a = true → a = b := by
  intro a
  induction a with
  | nil =>
    intro b h1 h2
    cases b with
    | nil => rfl
    | cons y ys => exact absurd h2 (by simp [strLe])
  | cons x xs ih =>
    intro b h1 h2
    cases b with
    | nil => exact absurd h1 (by simp [strLe])
    | cons y ys =>
      unfold strLe at h1 h2
      by_cases hxy : x.toNat < y.toNat
      · rw [if_neg (show ¬ y.toNat < x.toNat by omega), if_pos hxy] at h2
        exact absurd h2 (by simp)
      · by_cases hyx : y.toNat < x.toNat
        · rw [if_neg hxy, if_pos hyx] at h1
          exact absurd h1 (by simp)
        · rw [if_neg hxy, if_neg hyx] at h1
          rw [if_neg hyx, if_neg hxy] at h2
          rw [char_toNat_inj (show x.toNat = y.toNat by omega), ih ys h1 h2]

theorem tabLe_total (a b : CatTable) : tabLe a b = true ∨ tabLe b a = true := by
  unfold tabLe
  by_cases h : a.tschema = b.tschema
  · rw [if_pos h, if_pos h.symm]
    exact strLe_total _ _
  · rw [if_neg h, if_neg (fun hh => h hh.symm)]
    exact strLe_total _ _

theorem tabLe_trans (a b c : CatTable) (hab : tabLe a b = true) (hbc : tabLe b c = true) :
    tabLe a c = true := by
  unfold tabLe at hab hbc ⊢
  by_cases h1 : a.tschema = b.tschema
  · rw [if_pos h1] at hab
    by_cases h2 : b.tschema = c.tschema
    · rw [if_pos h2] at hbc
      rw [if_pos (h1.trans h2)]
      exact strLe_trans _ _ _ hab hbc
    · rw [if_neg h2] at hbc
      rw [if_neg (show a.tschema ≠ c.tschema from h1 ▸ h2), h1]
      exact hbc
  · rw [if_neg h1] at hab
    by_cases h2 : b.tschema = c.tschema
    · rw [if_pos h2] at hbc
      rw [if_neg (show a.tschema ≠ c.tschema from fun hh => h1 (hh.trans h2.symm)), ← h2]
      exact hab
    · rw [if_neg h2] at hbc
      by_cases h3 : a.tschema = c.tschema
      · exfalso
        apply h1
        apply strLe_antisymm _ _ hab
        rw [← h3] at hbc
        exact hbc
      · rw [if_neg h3]
        exact strLe_trans _ _ _ hab hbc

instance : IsTotal Str (fun a b => strLe a b = true) := ⟨strLe_total⟩

instance : IsTrans Str (fun a b => strLe a b = true) := ⟨strLe_trans⟩

instance : IsTotal CatTable (fun t u => tabLe t u = true) := ⟨tabLe_total⟩

instance : IsTrans CatTable (fun t u => tabLe t u = true) := ⟨tabLe_trans⟩

instance : IsTotal CatColumn (fun c d => c.ordinal ≤ d.ordinal) :=
  ⟨fun c d => Nat.le_total c.ordinal d.ordinal⟩

instance : IsTrans CatColumn (fun c d => c.ordinal ≤ d.ordinal) :=
  ⟨fun _ _ _ h1 h2 => Nat.le_trans h1 h2⟩

/-! Concrete inputs reused by several witnesses. -/

def wNoDbSession : SessionState :=
  { db_file := none, current_db_name := none, db_loaded := none,
    messages := [{ role := chars ("user"), content := chars ("hi") }],
    rag_docs := none, rag_url := none, rag_sources := [], vector_db := none }

def wDbSession : SessionState :=
  { db_file := none, current_db_name := some (chars ("userdb_1")), db_loaded := some true,
    messages := [], rag_docs := none, rag_url := none, rag_sources := [], vector_db := none }

def wViewOnlyCatalog : Catalog :=
  { tables := [{ tschema := chars ("dbo"), tname := chars ("V"), ttype := chars ("VIEW") }],
    columns := [] }

def wCat1 : Catalog :=
  { tables := [{ tschema := chars ("dbo"), tname := chars ("T"), ttype := chars ("BASE TABLE") }],
    columns := [{ cschema := chars ("dbo"), ctable := chars ("T"), cname := chars ("id"),
                  cdataType := chars ("int"), ordinal := 1 }] }

def wLLM : LLMOracle :=
  { genSql := Except.ok (chars ("SELECT 2")), fallbackReply := Except.ok (chars ("fb")),
    explainReply := Except.ok (chars ("expl")) }

def wDb51 : DbOracle :=
  { runSql := Except.ok ([chars ("c")], List.replicate 51 [chars ("v")]) }

def wPayload : Payload :=
  { question := chars ("q"), sql := chars ("SELECT 2"), columns := [chars ("c")],
    rows_sample := List.replicate 50 [chars ("v")], total_rows := 51 }

/-- C3: with no database loaded the turn yields exactly the fixed no-database
message, makes no model call and opens no database connection (the event
trace is empty); with a database whose catalog holds no base table, the
fixed empty-database message is yielded and no model call is made. -/
theorem c3_no_db_fixed_message (s : SessionState) (cat : Catalog) (history : List Str)
    (llm : LLMOracle) (db : DbOracle) :
    (has_db s = false →
      stream_db_response s cat history llm db =
        { events := [], yielded := some noDbMsg, raised := false,
          messages := s.messages ++ [mkAssistant noDbMsg], payload := none }) ∧
    (has_db s = true → baseTablesSorted cat = [] →
      stream_db_response s cat history llm db =
        { events := [Ev.connSchema], yielded := some emptyDbMsg, raised := false,
          messages := s.messages ++ [mkAssistant emptyDbMsg], payload := none }) := by
  constructor
  · intro h
    simp [stream_db_response, h]
  · intro h hbase
    have hschema : get_schema_summary true cat = chars ("NO_TABLES") := by
      simp [get_schema_summary, hbase]
    have hcond : (chars ("NO_TABLES") = chars ("NO_DB") ||
        chars ("NO_TABLES") = chars ("NO_TABLES")) = true := by decide
    simp [stream_db_response, h, hschema, hcond]

theorem c3_no_db_fixed_message_witness :
    (stream_db_response wNoDbSession wCat1 [chars ("hi")] wLLM wDb51 =
      { events := [], yielded := some noDbMsg, raised := false,
        messages := wNoDbSession.messages ++ [mkAssistant noDbMsg], payload := none }) ∧
    (stream_db_response wDbSession wViewOnlyCatalog [chars ("hi")] wLLM wDb51 =
      { events := [Ev.connSchema], yielded := some emptyDbMsg, raised := false,
        messages := wDbSession.messages ++ [mkAssistant emptyDbMsg], payload := none }) :=
  ⟨(c3_no_db_fixed_message wNoDbSession wCat1 [chars ("hi")] wLLM wDb51).1 (by decide),
   (c3_no_db_fixed_message wDbSession wViewOnlyCatalog [chars ("hi")] wLLM wDb51).2
     (by decide) (by decide)⟩

/-- C4: whenever a run of stream_db_response builds the explanation payload
from a successful execution, the payload's sample is the first 50 rows and
its total is the true row count: with more than 50 rows the sample is
exactly 50 rows, with at most 50 rows it is the full row set. -/
theorem c4_payload_truncation (s : SessionState) (cat : Catalog) (history : List Str)
    (llm : LLMOracle) (db : DbOracle) (columns : List Str) (rows : List Row)
    (hdb : db.runSql = Except.ok (columns, rows)) (p : Payload)
    (hp : (stream_db_response s cat history llm db).payload = some p) :
    p.columns = columns ∧ p.rows_sample = rows.take 50 ∧ p.total_rows = rows.length ∧
    (50 < rows.length → p.rows_sample.length = 50) ∧
    (rows.length ≤ 50 → p.rows_sample = rows) := by
  have hfields : p.columns = columns ∧ p.rows_sample = rows.take 50 ∧
      p.total_rows = rows.length := by
    simp only [stream_db_response, fallback_normal_answer] at hp
    repeat' split at hp
    all_goals try simp_all [max_rows_for_llm]
    all_goals (rw [← hp]; exact ⟨rfl, rfl, rfl⟩)
  obtain ⟨h1, h2, h3⟩ := hfields
  refine ⟨h1, h2, h3, ?_, ?_⟩
  · intro hgt
    rw [h2, List.length_take]
    omega
  · intro hle
    rw [h2]
    exact List.take_of_length_le hle

theorem c4_payload_truncation_witness :
    wPayload.columns = [chars ("c")] ∧
    wPayload.rows_sample = (List.replicate 51 ([chars ("v")] : Row)).take 50 ∧
    wPayload.total_rows = (List.replicate 51 ([chars ("v")] : Row)).length ∧
    (50 < (List.replicate 51 ([chars ("v")] : Row)).length →
      wPayload.rows_sample.length = 50) ∧
    ((List.replicate 51 ([chars ("v")] : Row)).length ≤ 50 →
      wPayload.rows_sample = List.replicate 51 ([chars ("v")] : Row)) :=
  c4_payload_truncation wDbSession wCat1 [chars ("q")] wLLM wDb51
    [chars ("c")] (List.replicate 51 [chars ("v")]) rfl wPayload (by decide)

/-- C5: get_schema_summary returns the NO_DB sentinel with no database and
the NO_TABLES sentinel when the catalog holds no base table, never raising;
otherwise it returns one line per base table in the documented format, with
tables a permutation of exactly the base-table rows sorted by (schema,
name), and each line's columns sorted by ordinal position. -/
theorem c5_schema_summary (cat : Catalog) :
    get_schema_summary false cat = chars ("NO_DB") ∧
    (baseTablesSorted cat = [] → get_schema_summary true cat = chars ("NO_TABLES")) ∧
    (baseTablesSorted cat ≠ [] →
      get_schema_summary true cat =
        List.intercalate [nlChar] ((baseTablesSorted cat).map (tableLine cat))) ∧
    (baseTablesSorted cat).Perm
      (cat.tables.filter (fun t => t.ttype = chars ("BASE TABLE"))) ∧
    List.Pairwise (fun t u => tabLe t u = true) (baseTablesSorted cat) ∧
    (∀ t ∈ baseTablesSorted cat, t.ttype = chars ("BASE TABLE")) ∧
    (∀ t : CatTable,
      (tableColumnsSorted cat t).Perm
        (cat.columns.filter (fun c => c.cschema = t.tschema && c.ctable = t.tname)) ∧
      List.Pairwise (fun c d => c.ordinal ≤ d.ordinal) (tableColumnsSorted cat t) ∧
      tableLine cat t =
        chars ("TABLE ") ++ t.tschema ++ chars (".") ++ t.tname ++ chars (": ") ++
          List.intercalate (chars (", "))
            ((tableColumnsSorted cat t).map (fun c => c.cname ++ chars (" ") ++ c.cdataType))) := by
  refine ⟨rfl, ?_, ?_, ?_, ?_, ?_, ?_⟩
  · intro h
    simp [get_schema_summary, h]
  · intro h
    simp [get_schema_summary, h]
  · exact List.perm_insertionSort _ _
  · exact List.sorted_insertionSort _ _
  · intro t ht
    have h1 : t ∈ cat.tables.filter (fun t => t.ttype = chars ("BASE TABLE")) :=
      (List.perm_insertionSort _ _).mem_iff.mp ht
    simp only [List.mem_filter, decide_eq_true_eq] at h1
    exact h1.2
  · intro t
    exact ⟨List.perm_insertionSort _ _, List.sorted_insertionSort _ _, rfl⟩

def wCat3 : Catalog :=
  { tables := [{ tschema := chars ("dbo"), tname := chars ("B"), ttype := chars ("BASE TABLE") },
               { tschema := chars ("dbo"), tname := chars ("A"), ttype := chars ("BASE TABLE") },
               { tschema := chars ("dbo"), tname := chars ("V"), ttype := chars ("VIEW") }],
    columns := [{ cschema := chars ("dbo"), ctable := chars ("A"), cname := chars ("y"),
                  cdataType := chars ("varchar"), ordinal := 2 },
                { cschema := chars ("dbo"), ctable := chars ("A"), cname := chars ("x"),
                  cdataType := chars ("int"), ordinal := 1 },
                { cschema := chars ("dbo"), ctable := chars ("B"), cname := chars ("id"),
                  cdataType := chars ("int"), ordinal := 1 },
                { cschema := chars ("dbo"), ctable := chars ("V"), cname := chars ("z"),
                  cdataType := chars ("int"), ordinal := 1 }] }

theorem c5_schema_summary_witness :
    get_schema_summary true wCat3 =
      chars ("TABLE dbo.A: x int, y varchar\nTABLE dbo.B: id int") := by
  have h := (c5_schema_summary wCat3).2.2.1 (by decide)
  rw [h]
  decide

def wBadUploadSession : SessionState :=
  { db_file := some { fname := chars ("data.txt"), fcontent := chars ("hello") },
    current_db_name := some (chars ("userdb_9")), db_loaded := some true,
    messages := [], rag_docs := none, rag_url := none, rag_sources := [], vector_db := none }

def wLoadOracle : LoadOracle :=
  { uuid := chars ("abcd1234rest"), saveResult := Except.ok (),
    restoreOracle := { manifest := Except.ok [], restoreExec := Except.ok () } }

/-- C6 counterexample: after uploading "data.txt" while db_loaded is true,
load_db_generic reports the error but flips db_loaded to false, so the
session state is not left unchanged as the claim asserts. -/
theorem c6_counterexample :
    (load_db_generic wBadUploadSession wLoadOracle).2.errorReported = true ∧
    (load_db_generic wBadUploadSession wLoadOracle).1 ≠ wBadUploadSession ∧
    wBadUploadSession.db_loaded = some true ∧
    (load_db_generic wBadUploadSession wLoadOracle).1.db_loaded = some false := by
  decide

/-- C6 amended: for every upload whose name does not end in ".bak"
case-insensitively, load_db_generic reports a user-visible error, never
reaches the restore step, leaves the current-database identifier and every
session field other than db_loaded unchanged, and sets db_loaded to false. -/
theorem c6_bad_extension_state (s : SessionState) (o : LoadOracle) (f : UploadedFile)
    (hf : s.db_file = some f)
    (hext : ¬ (chars (".bak")).isSuffixOf (pyLower f.fname) = true) :
    load_db_generic s o =
      ({ s with db_loaded := some false },
       { errorReported := true, toastShown := false, restoreTrace := none }) := by
  simp only [load_db_generic, hf]
  rw [if_pos hext]

theorem c6_bad_extension_state_witness :
    load_db_generic wBadUploadSession wLoadOracle =
      ({ wBadUploadSession with db_loaded := some false },
       { errorReported := true, toastShown := false, restoreTrace := none }) :=
  c6_bad_extension_state wBadUploadSession wLoadOracle
    { fname := chars ("data.txt"), fcontent := chars ("hello") } rfl (by decide)

/-- C7: a manifest result with fewer than two files makes the restore close
the connection and raise the structural error with the RESTORE command never
issued; and whenever the restore phase raises any error, load_db_generic
leaves the session's current-database identifier unchanged. -/
theorem c7_restore_errors :
    (∀ (o : RestoreOracle) (rows : List FileRow),
      o.manifest = Except.ok rows → rows.length < 2 →
      restore_database_from_bak o =
        { revents := [REv.openConn, REv.execManifest, REv.closeConn],
          routcome := RestoreOutcome.raised RestoreErr.structural } ∧
      (∀ d l, REv.execRestore d l ∉ (restore_database_from_bak o).revents)) ∧
    (∀ (s : SessionState) (o : LoadOracle) (rt : RestoreTrace),
      (load_db_generic s o).2.restoreTrace = some rt →
      ∀ e, rt.routcome = RestoreOutcome.raised e →
      (load_db_generic s o).1.current_db_name = s.current_db_name) := by
  constructor
  · intro o rows hman hlen
    have hres : restore_database_from_bak o =
        { revents := [REv.openConn, REv.execManifest, REv.closeConn],
          routcome := RestoreOutcome.raised RestoreErr.structural } := by
      unfold restore_database_from_bak
      rw [hman]
      match rows, hlen with
      | [], _ => rfl
      | [r], _ => rfl
      | r0 :: r1 :: rs, hlen => exact absurd hlen (by simp)
    refine ⟨hres, ?_⟩
    rw [hres]
    intro d l
    simp
  · intro s o rt hrt e hout
    unfold load_db_generic at hrt ⊢
    repeat' split at hrt
    all_goals repeat' split
    all_goals try simp_all
    all_goals cases hro : (restore_database_from_bak o.restoreOracle).routcome <;> simp_all

def wShortManifestOracle : RestoreOracle :=
  { manifest := Except.ok [{ logicalName := chars ("OnlyData") }],
    restoreExec := Except.ok () }

def wFailRestoreSession : SessionState :=
  { db_file := some { fname := chars ("db.bak"), fcontent := chars ("bin") },
    current_db_name := none, db_loaded := none,
    messages := [], rag_docs := none, rag_url := none, rag_sources := [], vector_db := none }

def wFailLoadOracle : LoadOracle :=
  { uuid := chars ("deadbeef99"), saveResult := Except.ok (),
    restoreOracle := { manifest := Except.error (chars ("boom")),
                       restoreExec := Except.ok () } }

theorem c7_restore_errors_witness :
    (restore_database_from_bak wShortManifestOracle =
      { revents := [REv.openConn, REv.execManifest, REv.closeConn],
        routcome := RestoreOutcome.raised RestoreErr.structural } ∧
     (∀ d l, REv.execRestore d l ∉ (restore_database_from_bak wShortManifestOracle).revents)) ∧
    (load_db_generic wFailRestoreSession wFailLoadOracle).1.current_db_name =
      wFailRestoreSession.current_db_name :=
  ⟨c7_restore_errors.1 wShortManifestOracle [{ logicalName := chars ("OnlyData") }]
      rfl (by decide),
   c7_restore_errors.2 wFailRestoreSession wFailLoadOracle
     { revents := [REv.openConn, REv.execManifest],
       routcome := RestoreOutcome.raised (RestoreErr.server (chars ("boom"))) }
     (by decide) (RestoreErr.server (chars ("boom"))) (by decide)⟩

theorem docLoop_at_cap (o : RagOracle) (files : List DocFile) (sources : List Str)
    (docs : List LoadedDoc) (notes : List RagNote)
    (hlen : DB_DOCS_LIMIT ≤ sources.length) :
    (docLoop o files sources docs notes).1 = sources ∧
    (docLoop o files sources docs notes).2.1 = docs ∧
    (∀ n ∈ notes, n ∈ (docLoop o files sources docs notes).2.2) ∧
    (∀ f ∈ files, f.dname ∉ sources →
      RagNote.errLimit ∈ (docLoop o files sources docs notes).2.2) := by
  induction files generalizing notes with
  | nil =>
    refine ⟨rfl, rfl, fun n hn => hn, fun f hf => absurd hf (by simp)⟩
  | cons f fs ih =>
    by_cases hmem : f.dname ∈ sources
    · simp only [docLoop, if_pos hmem]
      refine ⟨(ih notes).1, (ih notes).2.1, (ih notes).2.2.1, ?_⟩
      intro g hg hgnot
      rcases List.mem_cons.mp hg with rfl | hg2
      · exact absurd hmem hgnot
      · exact (ih notes).2.2.2 g hg2 hgnot
    · have hnot : ¬ sources.length < DB_DOCS_LIMIT := by omega
      simp only [docLoop, if_neg hmem, if_neg hnot]
      refine ⟨(ih _).1, (ih _).2.1, ?_, ?_⟩
      · intro n hn
        exact (ih (notes ++ [RagNote.errLimit])).2.2.1 n (List.mem_append_left _ hn)
      · intro g hg hgnot
        rcases List.mem_cons.mp hg with rfl | hg2
        · exact (ih (notes ++ [RagNote.errLimit])).2.2.1 RagNote.errLimit
            (List.mem_append_right _ (by simp))
        · exact (ih _).2.2.2 g hg2 hgnot

/-- C8: with the source list already at the 10-source cap, a new file or URL
is rejected with the cap error, the source list keeps its value and the
vector index is untouched; an already-seen file or URL is skipped silently
and the whole session is unchanged. -/
theorem c8_source_cap (o : RagOracle) (s : SessionState) :
    (s.rag_sources.length = DB_DOCS_LIMIT →
      (load_doc_to_db o s).1.rag_sources = s.rag_sources ∧
      (load_doc_to_db o s).1.vector_db = s.vector_db ∧
      (∀ files f, s.rag_docs = some files → f ∈ files → f.dname ∉ s.rag_sources →
        RagNote.errLimit ∈ (load_doc_to_db o s).2)) ∧
    (∀ url, s.rag_url = some url → url ≠ [] → url ∉ s.rag_sources →
      s.rag_sources.length = DB_DOCS_LIMIT →
      load_url_to_db o s = (s, [RagNote.errLimit])) ∧
    (∀ f, s.rag_docs = some [f] → f.dname ∈ s.rag_sources →
      load_doc_to_db o s = (s, [])) ∧
    (∀ url, s.rag_url = some url → url ≠ [] → url ∈ s.rag_sources →
      load_url_to_db o s = (s, [])) := by
  refine ⟨?_, ?_, ?_, ?_⟩
  · intro hlen
    cases hdocs : s.rag_docs with
    | none =>
      refine ⟨by simp [load_doc_to_db, hdocs], by simp [load_doc_to_db, hdocs], ?_⟩
      intro files f hf hmem hnot
      cases hf
    | some files =>
      cases files with
      | nil =>
        refine ⟨by simp [load_doc_to_db, hdocs], by simp [load_doc_to_db, hdocs], ?_⟩
        intro files f hf hmem hnot
        injection hf with h
        subst h
        cases hmem
      | cons f0 fs =>
        have hlen2 : DB_DOCS_LIMIT ≤ s.rag_sources.length := le_of_eq hlen.symm
        obtain ⟨h1, h2, h3, h4⟩ := docLoop_at_cap o (f0 :: fs) s.rag_sources [] [] hlen2
        rcases hD : docLoop o (f0 :: fs) s.rag_sources [] [] with ⟨sources, docs, notes⟩
        rw [hD] at h1 h2 h3 h4
        simp only at h1 h2 h3 h4
        subst h1
        subst h2
        refine ⟨by simp [load_doc_to_db, hdocs, hD], by simp [load_doc_to_db, hdocs, hD], ?_⟩
        intro files f hf hmem hnot
        injection hf with h
        subst h
        have hnotes : (load_doc_to_db o s).2 = notes := by
          simp [load_doc_to_db, hdocs, hD]
        rw [hnotes]
        exact h4 f hmem hnot
  · intro url hurl hne hnotmem hlen
    have hnotlt : ¬ s.rag_sources.length < DB_DOCS_LIMIT := by omega
    simp only [load_url_to_db, hurl, if_neg hne, if_neg hnotmem, if_neg hnotlt]
  · intro f hdocs hmem
    simp only [load_doc_to_db, hdocs, docLoop, if_pos hmem, if_true]
    rw [← hdocs]
  · intro url hurl hne hmem
    simp only [load_url_to_db, hurl, if_neg hne, if_pos hmem]

def wTenSources : List Str :=
  [chars ("s0"), chars ("s1"), chars ("s2"), chars ("s3"), chars ("s4"),
   chars ("s5"), chars ("s6"), chars ("s7"), chars ("s8"), chars ("s9")]

def wNewDoc : DocFile :=
  { dname := chars ("new.pdf"), dtype := chars ("application/pdf"),
    dcontent := chars ("blob") }

def wSeenDoc : DocFile :=
  { dname := chars ("s3"), dtype := chars ("application/pdf"),
    dcontent := chars ("blob") }

def wRagOracle : RagOracle :=
  { loadDoc := fun _ => Except.ok [chars ("page")],
    loadUrl := fun _ => Except.ok [chars ("page")],
    splitText := fun t => [t] }

def wCapSession : SessionState :=
  { db_file := none, current_db_name := none, db_loaded := none, messages := [],
    rag_docs := some [wNewDoc], rag_url := some (chars ("http://new")),
    rag_sources := wTenSources, vector_db := some [] }

def wSeenSession : SessionState :=
  { db_file := none, current_db_name := none, db_loaded := none, messages := [],
    rag_docs := some [wSeenDoc], rag_url := some (chars ("s7")),
    rag_sources := wTenSources, vector_db := some [] }

theorem c8_source_cap_witness :
    ((load_doc_to_db wRagOracle wCapSession).1.rag_sources = wCapSession.rag_sources ∧
     (load_doc_to_db wRagOracle wCapSession).1.vector_db = wCapSession.vector_db ∧
     RagNote.errLimit ∈ (load_doc_to_db wRagOracle wCapSession).2) ∧
    load_url_to_db wRagOracle wCapSession = (wCapSession, [RagNote.errLimit]) ∧
    load_doc_to_db wRagOracle wSeenSession = (wSeenSession, []) ∧
    load_url_to_db wRagOracle wSeenSession = (wSeenSession, []) := by
  refine ⟨?_, ?_, ?_, ?_⟩
  · have h := (c8_source_cap wRagOracle wCapSession).1 (by decide)
    exact ⟨h.1, h.2.1, h.2.2 [wNewDoc] wNewDoc rfl (by decide) (by decide)⟩
  · exact (c8_source_cap wRagOracle wCapSession).2.1 (chars ("http://new")) rfl
      (by decide) (by decide) (by decide)
  · exact (c8_source_cap wRagOracle wSeenSession).2.2.1 wSeenDoc rfl (by decide)
  · exact (c8_source_cap wRagOracle wSeenSession).2.2.2 (chars ("s7")) rfl
      (by decide) (by decide)

theorem append_diff_self (l1 l2 : List Str) : (l1 ++ l2).diff l1 = l2 := by
  induction l1 with
  | nil => simp
  | cons a l ih => simp [List.diff_cons, List.erase_cons_head, ih]

theorem evictLoop_diff : ∀ (names client : List Str),
    evictLoop names client = client.diff (names.take (names.length - collectionsCap)) := by
  intro names
  induction names with
  | nil => intro client; simp [evictLoop]
  | cons n rest ih =>
    intro client
    by_cases h : rest.length + 1 > collectionsCap
    · simp only [evictLoop, if_pos h]
      rw [ih (client.erase n)]
      have hk : (n :: rest).length - collectionsCap = (rest.length - collectionsCap) + 1 := by
        simp only [List.length_cons, collectionsCap] at h ⊢
        omega
      rw [hk, List.take_succ_cons, List.diff_cons]
    · simp only [evictLoop, if_neg h]
      have hk : (n :: rest).length - collectionsCap = 0 := by
        simp only [List.length_cons, collectionsCap] at h ⊢
        omega
      rw [hk]
      simp

/-- C9: after every call of initialize_vector_db the collection registry
holds at most 20 collections; what was deleted is exactly the prefix of the
lexicographically sorted collection names that exceeds the cap (the
lexicographically smallest names), the survivors being a permutation of the
remaining sorted suffix. -/
theorem c9_collection_cap (registry : List Str) (newName : Str) :
    (initialize_vector_db registry newName).length ≤ collectionsCap ∧
    initialize_vector_db registry newName =
      (registry ++ [newName]).diff
        ((List.insertionSort (fun a b => strLe a b = true) (registry ++ [newName])).take
          ((registry ++ [newName]).length - collectionsCap)) ∧
    (initialize_vector_db registry newName).Perm
      ((List.insertionSort (fun a b => strLe a b = true) (registry ++ [newName])).drop
        ((registry ++ [newName]).length - collectionsCap)) ∧
    List.Pairwise (fun a b => strLe a b = true)
      (List.insertionSort (fun a b => strLe a b = true) (registry ++ [newName])) := by
  have hsorted : List.Pairwise (fun a b => strLe a b = true)
      (List.insertionSort (fun a b => strLe a b = true) (registry ++ [newName])) :=
    List.sorted_insertionSort _ _
  have hP : (registry ++ [newName]).Perm
      (List.insertionSort (fun a b => strLe a b = true) (registry ++ [newName])) :=
    (List.perm_insertionSort _ _).symm
  generalize hS : List.insertionSort (fun a b => strLe a b = true)
    (registry ++ [newName]) = srt at hsorted hP ⊢
  have hdiffdef : initialize_vector_db registry newName =
      (registry ++ [newName]).diff
        (srt.take ((registry ++ [newName]).length - collectionsCap)) := by
    simp only [initialize_vector_db]
    rw [hS, evictLoop_diff, ← hP.length_eq]
  have hcancel : srt.diff (srt.take ((registry ++ [newName]).length - collectionsCap)) =
      srt.drop ((registry ++ [newName]).length - collectionsCap) := by
    have h := append_diff_self
      (srt.take ((registry ++ [newName]).length - collectionsCap))
      (srt.drop ((registry ++ [newName]).length - collectionsCap))
    rwa [List.take_append_drop] at h
  have hperm : (initialize_vector_db registry newName).Perm
      (srt.drop ((registry ++ [newName]).length - collectionsCap)) := by
    rw [hdiffdef, ← hcancel]
    have hinst : (instBEqOfDecidableEq : BEq Str) = List.instBEq :=
      lawful_beq_subsingleton _ _
    have h := hP.diff_right
      (srt.take ((registry ++ [newName]).length - collectionsCap))
    rw [hinst] at h
    exact h
  refine ⟨?_, hdiffdef, hperm, hsorted⟩
  rw [hperm.length_eq, List.length_drop, ← hP.length_eq]
  omega
